import Mathlib

/-
Verification of the ReAct agent control loop (react_agent.py): the
Thought/Action/Observation loop `run`, the free-text action parser
`_parse_action`, and the tool-invocation boundary `Tool.execute`.
Python strings are modelled as Lean `String`, Python dict/JSON values as an
inductive `JVal`, raised exceptions as `Except`/an explicit `raised` outcome,
and the model-completion collaborator (`_call_llm`) as a function parameter
from the transcript to the raw response text.
-/

namespace ReAct

/-- A chat message: a role (`"system" | "user" | "assistant"`) paired with
string content. -/
structure Message where
  role : String
  content : String
deriving Repr, DecidableEq

/-- Characters removed by Python `str.strip()` (ASCII whitespace). -/
def pyWs (c : Char) : Bool :=
  c = ' ' || c = '\t' || c = '\n' || c = '\r' || c = '\x0b' || c = '\x0c'

/-- Python `str.strip()`: remove leading and trailing whitespace. -/
def pyStrip (s : String) : String :=
  String.mk (((s.toList.dropWhile pyWs).reverse.dropWhile pyWs).reverse)

/-- Strip a literal prefix from a character list, returning the rest. -/
def stripPre : List Char → List Char → Option (List Char)
  | [], cs => some cs
  | _ :: _, [] => none
  | l :: ls, c :: cs => if l = c then stripPre ls cs else none

/-- Prepend a character to the first group of a split result. -/
def consHead (c : Char) : List (List Char) → List (List Char)
  | g :: gs => (c :: g) :: gs
  | [] => [[c]]

/-- Fuel-bounded scan behind `pySplit`: cut at each leftmost, non-overlapping
occurrence of `sep`. The fuel in `pySplit` always suffices. -/
def splitChars (sep : List Char) : Nat → List Char → List (List Char)
  | _, [] => [[]]
  | 0, cs => [cs]
  | fuel + 1, c :: cs =>
    match stripPre sep (c :: cs) with
    | some rest => [] :: splitChars sep fuel rest
    | none => consHead c (splitChars sep fuel cs)

/-- Python `s.split(sep)` for a nonempty separator. -/
def pySplit (s sep : String) : List String :=
  (splitChars sep.toList (s.toList.length + 1) s.toList).map String.mk

/-- Python `sub in s` substring test, for nonempty `sub`. -/
def pyContains (s sub : String) : Bool :=
  (pySplit s sub).length != 1

/-- Join string groups with a separator (Python `sep.join`). -/
def joinWith (sep : String) : List String → String
  | [] => ""
  | [x] => x
  | x :: xs => x ++ sep ++ joinWith sep xs

/-- Python `s.split(sub, 1)[1]`: everything after the first occurrence of
`sub` (used only when `sub` occurs in `s`). -/
def afterFirst (s sub : String) : String :=
  joinWith sub (pySplit s sub).tail

/-- Python `s.startswith(pre)`. -/
def pyStartsWith (s pre : String) : Bool :=
  (stripPre pre.toList s.toList).isSome

/-- Python `s.replace(old, new)` for nonempty `old`: replace every
leftmost, non-overlapping occurrence. -/
def pyReplace (s old new : String) : String :=
  joinWith new (pySplit s old)

/-- JSON values as produced by Python `json.loads`. A float keeps its source
lexeme (no claim inspects float arithmetic). -/
inductive JVal where
  | jnull
  | jbool (b : Bool)
  | jnum (n : Int)
  | jfloat (lexeme : String)
  | jstr (s : String)
  | jarr (elems : List JVal)
  | jobj (fields : List (String × JVal))
deriving Repr

/-- Whitespace skipped between JSON tokens. -/
def jsonWs (c : Char) : Bool :=
  c = ' ' || c = '\t' || c = '\n' || c = '\r'

/-- Drop leading JSON whitespace. -/
def skipWs : List Char → List Char
  | c :: cs => if jsonWs c then skipWs cs else c :: cs
  | [] => []

/-- The character `{`. -/
def braceOpen : Char := Char.ofNat 123

/-- The character `}`. -/
def braceClose : Char := Char.ofNat 125

/-- Numeric value of a decimal digit string. -/
def digitsToNat (ds : List Char) : Nat :=
  ds.foldl (fun acc c => acc * 10 + (c.toNat - '0'.toNat)) 0

/-- JSON integer part: `0`, or a nonzero digit followed by digits
(leading zeros are rejected, as by Python `json`). Returns the digits
consumed and the rest. -/
def parseIntPart (cs : List Char) : Option (List Char × List Char) :=
  match cs with
  | [] => none
  | c :: rest =>
    if c = '0' then some ([c], rest)
    else if c.isDigit then
      some (c :: rest.takeWhile Char.isDigit, rest.dropWhile Char.isDigit)
    else none

/-- JSON number per the grammar Python `json` uses:
`-? int frac? exp?`. An integer becomes `jnum`; a number with a fraction or
exponent part becomes `jfloat` carrying its lexeme. -/
def parseNumber (cs : List Char) : Option (JVal × List Char) :=
  let p := match cs with
    | '-' :: rest => (true, rest)
    | _ => (false, cs)
  let neg := p.1
  let cs1 := p.2
  match parseIntPart cs1 with
  | none => none
  | some (ip, cs2) =>
    let pf : List Char × List Char := match cs2 with
      | '.' :: rest =>
        let ds := rest.takeWhile Char.isDigit
        if ds.isEmpty then ([], cs2)
        else ('.' :: ds, rest.dropWhile Char.isDigit)
      | _ => ([], cs2)
    let fr := pf.1
    let cs3 := pf.2
    let pe : List Char × List Char := match cs3 with
      | e :: rest =>
        if e = 'e' ∨ e = 'E' then
          let ps : List Char × List Char := match rest with
            | s :: r2 => if s = '+' ∨ s = '-' then ([s], r2) else ([], rest)
            | [] => ([], rest)
          let ds := ps.2.takeWhile Char.isDigit
          if ds.isEmpty then ([], cs3)
          else (e :: (ps.1 ++ ds), ps.2.dropWhile Char.isDigit)
        else ([], cs3)
      | [] => ([], cs3)
    let ex := pe.1
    let cs4 := pe.2
    if fr.isEmpty ∧ ex.isEmpty then
      let n : Int := Int.ofNat (digitsToNat ip)
      some (.jnum (if neg then -n else n), cs2)
    else
      some (.jfloat (String.mk ((if neg then ['-'] else []) ++ ip ++ fr ++ ex)), cs4)

/-- Value of a hexadecimal digit. -/
def hexVal (c : Char) : Option Nat :=
  if c.isDigit then some (c.toNat - '0'.toNat)
  else if 'a' ≤ c ∧ c ≤ 'f' then some (c.toNat - 'a'.toNat + 10)
  else if 'A' ≤ c ∧ c ≤ 'F' then some (c.toNat - 'A'.toNat + 10)
  else none

/-- Body of a JSON string literal, after the opening quote: returns the
decoded characters and the rest after the closing quote. Escapes follow
Python `json` (strict mode: raw control characters are rejected). -/
def parseStrChars : List Char → Option (List Char × List Char)
  | [] => none
  | c :: rest =>
    if c = '"' then some ([], rest)
    else if c = '\\' then
      match rest with
      | [] => none
      | e :: rest2 =>
        let esc : Option Char :=
          if e = '"' then some '"'
          else if e = '\\' then some '\\'
          else if e = '/' then some '/'
          else if e = 'b' then some '\x08'
          else if e = 'f' then some '\x0c'
          else if e = 'n' then some '\n'
          else if e = 'r' then some '\r'
          else if e = 't' then some '\t'
          else none
        match esc with
        | some ch =>
          match parseStrChars rest2 with
          | some (s, r) => some (ch :: s, r)
          | none => none
        | none =>
          if e = 'u' then
            match rest2 with
            | h1 :: h2 :: h3 :: h4 :: rest3 =>
              match hexVal h1, hexVal h2, hexVal h3, hexVal h4 with
              | some a, some b, some c', some d =>
                let code := ((a * 16 + b) * 16 + c') * 16 + d
                match parseStrChars rest3 with
                | some (s, r) => some (Char.ofNat code :: s, r)
                | none => none
              | _, _, _, _ => none
            | _ => none
          else none
    else if c.toNat < 32 then none
    else
      match parseStrChars rest with
      | some (s, r) => some (c :: s, r)
      | none => none

/-- Python dict insertion semantics for a repeated key: the later value
replaces the earlier one in place. -/
def setKey (fields : List (String × JVal)) (k : String) (v : JVal) :
    List (String × JVal) :=
  if fields.any (fun p => p.1 = k) then
    fields.map (fun p => if p.1 = k then (k, v) else p)
  else fields ++ [(k, v)]

/-- Build a Python dict from parsed key/value pairs in order. -/
def buildDict (pairs : List (String × JVal)) : List (String × JVal) :=
  pairs.foldl (fun acc p => setKey acc p.1 p.2) []

mutual

/-- One JSON value, fuel-bounded (initial fuel is generous; see
`jsonLoads`). Mirrors Python `json.loads`, including the non-standard
`NaN`, `Infinity`, and `-Infinity` literals Python accepts. -/
def parseVal : Nat → List Char → Option (JVal × List Char)
  | 0, _ => none
  | fuel + 1, cs =>
    match skipWs cs with
    | [] => none
    | c :: rest =>
      if c = '"' then
        match parseStrChars rest with
        | some (s, r) => some (.jstr (String.mk s), r)
        | none => none
      else if c = braceOpen then
        match skipWs rest with
        | c2 :: rest2 =>
          if c2 = braceClose then some (.jobj [], rest2)
          else
            match parseObjItems fuel (c2 :: rest2) with
            | some (fields, r) => some (.jobj (buildDict fields), r)
            | none => none
        | [] => none
      else if c = '[' then
        match skipWs rest with
        | c2 :: rest2 =>
          if c2 = ']' then some (.jarr [], rest2)
          else
            match parseArrItems fuel (c2 :: rest2) with
            | some (vs, r) => some (.jarr vs, r)
            | none => none
        | [] => none
      else if c = 't' then
        (stripPre ['r', 'u', 'e'] rest).map (fun r => (.jbool true, r))
      else if c = 'f' then
        (stripPre ['a', 'l', 's', 'e'] rest).map (fun r => (.jbool false, r))
      else if c = 'n' then
        (stripPre ['u', 'l', 'l'] rest).map (fun r => (.jnull, r))
      else if c = 'N' then
        (stripPre ['a', 'N'] rest).map (fun r => (.jfloat "NaN", r))
      else if c = 'I' then
        (stripPre ['n', 'f', 'i', 'n', 'i', 't', 'y'] rest).map
          (fun r => (.jfloat "Infinity", r))
      else if c = '-' then
        match stripPre ['I', 'n', 'f', 'i', 'n', 'i', 't', 'y'] rest with
        | some r => some (.jfloat "-Infinity", r)
        | none => parseNumber (c :: rest)
      else if c.isDigit then parseNumber (c :: rest)
      else none

/-- Comma-separated array items up to `]`. -/
def parseArrItems : Nat → List Char → Option (List JVal × List Char)
  | 0, _ => none
  | fuel + 1, cs =>
    match parseVal fuel cs with
    | none => none
    | some (v, r) =>
      match skipWs r with
      | ',' :: r2 =>
        match parseArrItems fuel r2 with
        | some (vs, r3) => some (v :: vs, r3)
        | none => none
      | c :: r2 =>
        if c = ']' then some ([v], r2) else none
      | [] => none

/-- Comma-separated `"key": value` items up to `}`. -/
def parseObjItems : Nat → List Char → Option (List (String × JVal) × List Char)
  | 0, _ => none
  | fuel + 1, cs =>
    match skipWs cs with
    | c :: rest =>
      if c = '"' then
        match parseStrChars rest with
        | some (k, r) =>
          match skipWs r with
          | c2 :: r2 =>
            if c2 = ':' then
              match parseVal fuel r2 with
              | some (v, r3) =>
                match skipWs r3 with
                | c3 :: r4 =>
                  if c3 = ',' then
                    match parseObjItems fuel r4 with
                    | some (fields, r5) => some ((String.mk k, v) :: fields, r5)
                    | none => none
                  else if c3 = braceClose then
                    some ([(String.mk k, v)], r4)
                  else none
                | [] => none
              | none => none
            else none
          | [] => none
        | none => none
      else none
    | [] => none

end

/-- Python `json.loads` on the agent's action-input strings: `some v` when
decoding succeeds with value `v`, `none` when `json.loads` raises
`JSONDecodeError` (invalid document, or trailing data after the value). -/
def jsonLoads (s : String) : Option JVal :=
  let cs := s.toList
  match parseVal (2 * cs.length + 2) cs with
  | none => none
  | some (v, rest) => if (skipWs rest).isEmpty then some v else none

/-- One step of the line scan in `_parse_action` (react_agent.py lines
281-290): the accumulator is the running `(action, action_input)` pair.
A line starting with `Action:` sets the action name to the remainder,
trimmed; otherwise a line starting with `Action Input:` sets the input to
the decoded remainder, or to the single-field wrapping of the raw remainder
when `json.loads` raises. -/
def parseActionStep (acc : Option String × Option JVal) (line : String) :
    Option String × Option JVal :=
  if pyStartsWith line "Action:" then
    (some (pyStrip (pyReplace line "Action:" "")), acc.2)
  else if pyStartsWith line "Action Input:" then
    let input_str := pyStrip (pyReplace line "Action Input:" "")
    match jsonLoads input_str with
    | some v => (acc.1, some v)
    | none => (acc.1, some (.jobj [("input", .jstr input_str)]))
  else acc

/-- The line list `_parse_action` scans:
`llm_response.strip().split("\n")` (react_agent.py line 277). -/
def pyLines (llm_response : String) : List String :=
  pySplit (pyStrip llm_response) "\n"

/-- `ReActAgent._parse_action` (react_agent.py lines 270-292). -/
def parse_action (llm_response : String) : Option String × Option JVal :=
  (pyLines llm_response).foldl parseActionStep (none, none)

/-- A registered tool (react_agent.py lines 19-24): name, description and
capability. The capability models the call `self.function(**kwargs)` on a
keyword-argument dict: `.ok s` is a returned string and `.error msg` a
raised exception with message `msg` (bad arguments, network error,
evaluation error). -/
structure Tool where
  name : String
  description : String
  function : List (String × JVal) → Except String String

/-- `Tool.execute` (react_agent.py lines 26-32): invoke the capability and
convert any raised exception into an error-observation string. -/
def Tool.execute (t : Tool) (kwargs : List (String × JVal)) : String :=
  match t.function kwargs with
  | .ok result => result
  | .error e => "Error executing " ++ t.name ++ ": " ++ e

/-- The agent state (react_agent.py lines 40-48): `tools` is the name-keyed
registry (a Python dict, modelled as an ordered association list with
unique keys). -/
structure ReActAgent where
  api_key : String
  model : String
  tools : List (String × Tool)
  conversation_history : List Message
  max_iterations : Nat

/-- Python `self.tools.get(tool_name)`: case-sensitive exact-match dict
lookup (react_agent.py line 256). -/
def toolsGet (tools : List (String × Tool)) (name : String) : Option Tool :=
  match tools with
  | [] => none
  | (k, t) :: rest => if k = name then some t else toolsGet rest name

/-- Outcome of one `run` call: the returned string, or an uncaught Python
exception escaping `run` (the `tool.execute(**tool_input)` call at
react_agent.py line 262 raises `TypeError` before entering `execute` when
the decoded action input is not a mapping). -/
inductive RunOutcome where
  | ok (answer : String)
  | raised (msg : String)
deriving Repr, DecidableEq

/-- `ReActAgent._get_tool_descriptions` (react_agent.py lines 185-190). -/
def get_tool_descriptions (a : ReActAgent) : String :=
  joinWith "\n" (a.tools.map (fun p => "- " ++ p.1 ++ ": " ++ p.2.description))

/-- The system prompt `run` builds (react_agent.py lines 218-235). -/
def systemPrompt (a : ReActAgent) : String :=
  "You are a helpful ReAct agent.\n\nAvailable tools:\n"
  ++ get_tool_descriptions a
  ++ "\n\nIf you mention a tool or say you can use a tool, you MUST immediately use it by emitting an Action and Action Input.\nNever describe tool usage without performing it.\n\nTo use a tool, respond with:\nThought: [your reasoning about what to do next]\nAction: [tool_name]\nAction Input: \x7b\"param_name\": \"param_value\"\x7d\n\nWhen you have enough information to answer the question, respond with:\nThought: [your reasoning]\nFinal Answer: [your complete answer to the user\x27s question]\n\nAlways think step by step and use tools when you need information."

/-- The initial transcript of one `run` call (react_agent.py lines
237-239): the system prompt followed by the user query. -/
def initialMessages (a : ReActAgent) (user_query : String) : List Message :=
  [⟨"system", systemPrompt a⟩, ⟨"user", user_query⟩]

/-- The `while steps < self.max_iterations` loop of `run` (react_agent.py
lines 241-267). `llm` models the completion collaborator `self._call_llm`
(a stub: transcript in, raw response text out). Since `steps` starts at 0
and each non-returning pass increments it by exactly 1, the guard
`steps < max_iterations` is represented by the countdown
`remaining = max_iterations - steps`. Returns the outcome paired with the
number of completion calls made from this point on.

The bound-method call `tool.execute(**tool_input)` at react_agent.py line
262 can itself raise, outside any try block: unpacking a non-mapping
raises `TypeError`, and call binding of a mapping that contains the key
`self` raises `TypeError` (collision with the already-bound `self`
parameter of `def execute(self, **kwargs)`) before the body of `execute`
is entered; both escape `run`. -/
def runLoop (a : ReActAgent) (llm : List Message → String) :
    Nat → List Message → RunOutcome × Nat
  | 0, _ =>
    (.ok "I couldn\x27t complete the task within the iteration limit.", 0)
  | remaining + 1, messages =>
    let response_text := llm messages
    let messages1 := messages ++ [⟨"assistant", response_text⟩]
    if pyContains response_text "Final Answer:" then
      (.ok (pyStrip (afterFirst response_text "Final Answer:")), 1)
    else
      let parsed := parse_action response_text
      match parsed.1 with
      | none => (.ok response_text, 1)
      | some tool_name =>
        if tool_name = "" then (.ok response_text, 1)
        else
          let tool_input : JVal :=
            match parsed.2 with
            | none => .jobj []
            | some .jnull => .jobj []
            | some v => v
          match toolsGet a.tools tool_name with
          | none =>
            let messages2 := messages1 ++
              [⟨"user", "Observation: Tool \x27" ++ tool_name ++ "\x27 not found."⟩]
            let r := runLoop a llm remaining messages2
            (r.1, r.2 + 1)
          | some tool =>
            match tool_input with
            | .jobj kwargs =>
              if kwargs.any (fun p => p.1 = "self") then
                (.raised
                  "TypeError: execute() got multiple values for argument \x27self\x27",
                  1)
              else
                let observation := tool.execute kwargs
                let messages2 := messages1 ++
                  [⟨"user", "Observation: " ++ observation⟩]
                let r := runLoop a llm remaining messages2
                (r.1, r.2 + 1)
            | _ =>
              (.raised "TypeError: argument after ** must be a mapping", 1)

/-- Result of one `run` call: outcome, number of completion calls made, and
the agent state when `run` returns (the method body never assigns to any
`self` field). -/
structure RunRet where
  outcome : RunOutcome
  llm_calls : Nat
  agent : ReActAgent

/-- `ReActAgent.run` (react_agent.py lines 217-267). -/
def run (a : ReActAgent) (llm : List Message → String) (user_query : String) :
    RunRet :=
  let r := runLoop a llm a.max_iterations (initialMessages a user_query)
  ⟨r.1, r.2, a⟩

/-- `ReActAgent.get_conversation_history` (react_agent.py lines 294-296). -/
def get_conversation_history (a : ReActAgent) : List Message :=
  a.conversation_history

/-- `ReActAgent._setup_tools` (react_agent.py lines 50-183): the four
registered tools, in registration order. The capability bodies are impure
(restricted `eval`, the system clock, HTTP requests) and are taken as
parameters; the names and descriptions are the source's. -/
def setupTools (calculator get_current_time get_weather search_arxiv :
    List (String × JVal) → Except String String) : List (String × Tool) :=
  [("calculator", ⟨"calculator",
    "Evaluates mathematical expressions. Input: expression (string). Example: calculator(expression=\x272 + 2 * 5\x27)",
    calculator⟩),
   ("get_current_time", ⟨"get_current_time",
    "Returns current date and time. Input: timezone (optional, defaults to UTC). Example: get_current_time(timezone=\x27UTC\x27)",
    get_current_time⟩),
   ("get_weather", ⟨"get_weather",
    "Gets weather forecast from National Weather Service for US locations. Input: latitude (float), longitude (float). Example: get_weather(latitude=38.8894, longitude=-77.0352)",
    get_weather⟩),
   ("search_arxiv", ⟨"search_arxiv",
    "Searches for research papers on arXiv. Input: query (string), max_results (optional, default 3). Example: search_arxiv(query=\x27machine learning\x27, max_results=3)",
    search_arxiv⟩)]

/-- `ReActAgent.__init__` (react_agent.py lines 40-48); the default
argument `model="openai/gpt-3.5-turbo"` is applied at call sites. -/
def ReActAgent.init (api_key model : String)
    (calculator get_current_time get_weather search_arxiv :
      List (String × JVal) → Except String String) : ReActAgent :=
  { api_key := api_key
    model := model
    tools := setupTools calculator get_current_time get_weather search_arxiv
    conversation_history := []
    max_iterations := 10 }

/-- One scan step with the matching rule as the claim words it — each line
is trimmed before the prefix test — written only to compare against the
source's `parseActionStep`. -/
def parseActionStepSpec (acc : Option String × Option JVal) (line : String) :
    Option String × Option JVal :=
  if pyStartsWith (pyStrip line) "Action:" then
    (some (pyStrip (pyReplace (pyStrip line) "Action:" "")), acc.2)
  else if pyStartsWith (pyStrip line) "Action Input:" then
    let input_str := pyStrip (pyReplace (pyStrip line) "Action Input:" "")
    match jsonLoads input_str with
    | some v => (acc.1, some v)
    | none => (acc.1, some (.jobj [("input", .jstr input_str)]))
  else acc

/-- The action parser under the claim's per-line-trimmed matching (spec
reading), for comparison with the source's `parse_action`. -/
def parse_action_spec (llm_response : String) : Option String × Option JVal :=
  (pyLines llm_response).foldl parseActionStepSpec (none, none)

/-- Capability stub standing in for the calculator body (restricted `eval`,
impure): the loop properties under test never depend on capability bodies. -/
def calcStub : List (String × JVal) → Except String String :=
  fun _ => .ok "The result of 2+2 is 4"

/-- Capability stub for `get_current_time` that raises with message
`boom` on every invocation. -/
def timeStub : List (String × JVal) → Except String String :=
  fun _ => .error "boom"

/-- Capability stub for `get_weather` that raises a transport failure. -/
def weatherStub : List (String × JVal) → Except String String :=
  fun _ => .error "connection timed out"

/-- Capability stub for `search_arxiv`. -/
def arxivStub : List (String × JVal) → Except String String :=
  fun _ => .ok "Found 0 papers"

/-- A concrete agent built by `__init__` with the default model string and
the stub capabilities: four registered tools, empty history, budget 10. -/
def demoAgent : ReActAgent :=
  ReActAgent.init "test-key" "openai/gpt-3.5-turbo"
    calcStub timeStub weatherStub arxivStub

/-- The name an `Action:` line contributes: the remainder of the line with
every occurrence of `Action:` removed, trimmed (react_agent.py line 283). -/
def nameOfLine (line : String) : String :=
  pyStrip (pyReplace line "Action:" "")

/-- The input an `Action Input:` line contributes: the trimmed remainder
decoded as JSON, or the single-field wrapping of the raw remainder when
decoding fails (react_agent.py lines 285-290). -/
def inputOfLine (line : String) : JVal :=
  match jsonLoads (pyStrip (pyReplace line "Action Input:" "")) with
  | some v => v
  | none => .jobj [("input", .jstr (pyStrip (pyReplace line "Action Input:" "")))]

/-- The last line of a list satisfying `p`, if any. -/
def lastMatch (p : String → Bool) : List String → Option String
  | [] => none
  | l :: ls =>
    match lastMatch p ls with
    | some r => some r
    | none => if p l then some l else none

/-- A line matching the `Action:` marker: the marker is the line's literal
leading text. -/
def isActionLine (l : String) : Bool := pyStartsWith l "Action:"

/-- A line matching the `Action Input:` marker. -/
def isInputLine (l : String) : Bool := pyStartsWith l "Action Input:"

theorem lastMatch_isSome_iff (p : String → Bool) (ls : List String) :
    (lastMatch p ls).isSome = true ↔ ∃ l ∈ ls, p l = true := by
  induction ls with
  | nil => simp [lastMatch]
  | cons l ls ih =>
    simp only [lastMatch]
    cases h : lastMatch p ls with
    | some r =>
      simp only [Option.isSome_some, true_iff]
      obtain ⟨l', hmem, hp⟩ := ih.mp (by simp [h])
      exact ⟨l', List.mem_cons_of_mem _ hmem, hp⟩
    | none =>
      constructor
      · intro hs
        by_cases hp : p l = true
        · exact ⟨l, List.mem_cons_self _ _, hp⟩
        · simp [hp] at hs
      · rintro ⟨l', hmem, hp⟩
        rcases List.mem_cons.mp hmem with rfl | hmem'
        · simp [hp]
        · have : (lastMatch p ls).isSome = true := ih.mpr ⟨l', hmem', hp⟩
          simp [h] at this

theorem lastMatch_mem (p : String → Bool) (ls : List String) (l : String)
    (h : lastMatch p ls = some l) : l ∈ ls ∧ p l = true := by
  induction ls with
  | nil => simp [lastMatch] at h
  | cons x ls ih =>
    simp only [lastMatch] at h
    cases hx : lastMatch p ls with
    | some r =>
      rw [hx] at h
      obtain ⟨hmem, hp⟩ := ih (hx.trans (by injection h with h'; rw [h']))
      exact ⟨List.mem_cons_of_mem _ hmem, hp⟩
    | none =>
      rw [hx] at h
      by_cases hp : p x = true
      · simp only [hp, if_true] at h
        injection h with h'
        exact ⟨h' ▸ List.mem_cons_self _ _, h' ▸ hp⟩
      · simp [hp] at h

/-- The scan's running action name equals the contribution of the last
`Action:`-matching line seen so far. -/
theorem foldl_fst_eq_lastMatch (ls : List String) :
    ∀ acc : Option String × Option JVal,
      (ls.foldl parseActionStep acc).1 =
        match lastMatch isActionLine ls with
        | some l => some (nameOfLine l)
        | none => acc.1 := by
  induction ls with
  | nil => intro acc; simp [lastMatch]
  | cons l ls ih =>
    intro acc
    simp only [List.foldl_cons, lastMatch]
    rw [ih (parseActionStep acc l)]
    cases h : lastMatch isActionLine ls with
    | some r => simp
    | none =>
      simp only [parseActionStep, isActionLine]
      by_cases h1 : pyStartsWith l "Action:" = true
      · simp [h1, nameOfLine]
      · by_cases h2 : pyStartsWith l "Action Input:" = true
        · cases hj : jsonLoads (pyStrip (pyReplace l "Action Input:" "")) <;>
            simp [h1, h2, hj]
        · simp [h1, h2]

theorem stripPre_append_isSome (pre ds cs : List Char)
    (h : (stripPre (pre ++ ds) cs).isSome = true) :
    ∃ cs', stripPre pre cs = some cs' ∧ (stripPre ds cs').isSome = true := by
  induction pre generalizing cs with
  | nil => exact ⟨cs, rfl, h⟩
  | cons p pre ih =>
    cases cs with
    | nil => simp [stripPre] at h
    | cons c cs =>
      simp only [List.cons_append, stripPre] at h ⊢
      split_ifs at h with hp
      · simpa [hp] using ih cs h
      · simp at h

/-- The two markers are mutually exclusive as line prefixes: after the
common prefix `Action`, one requires `:` and the other a space (this is why
the source's `elif` ordering is immaterial). -/
theorem startsWith_action_not_input (l : String)
    (h : pyStartsWith l "Action:" = true) :
    pyStartsWith l "Action Input:" = false := by
  simp only [pyStartsWith] at h ⊢
  have e1 : "Action:".toList = "Action".toList ++ [':'] := rfl
  have e2 : "Action Input:".toList =
      "Action".toList ++ (' ' :: "Input:".toList) := rfl
  rw [e1] at h
  rw [e2]
  obtain ⟨cs', hpre, hrest⟩ := stripPre_append_isSome _ _ _ h
  by_contra hcon
  rw [Bool.not_eq_false] at hcon
  obtain ⟨cs'', hpre2, hrest2⟩ := stripPre_append_isSome _ _ _ hcon
  rw [hpre] at hpre2
  injection hpre2 with he
  subst he
  cases cs' with
  | nil => simp [stripPre] at hrest
  | cons c t =>
    simp only [stripPre] at hrest hrest2
    split_ifs at hrest with h1
    · split_ifs at hrest2 with h2
      · exact absurd (h2.trans h1.symm) (by decide)
      · simp at hrest2
    · simp at hrest

/-- The scan's running action input equals the contribution of the last
`Action Input:`-matching line seen so far. -/
theorem foldl_snd_eq_lastMatch (ls : List String) :
    ∀ acc : Option String × Option JVal,
      (ls.foldl parseActionStep acc).2 =
        match lastMatch isInputLine ls with
        | some l => some (inputOfLine l)
        | none => acc.2 := by
  induction ls with
  | nil => intro acc; simp [lastMatch]
  | cons l ls ih =>
    intro acc
    simp only [List.foldl_cons, lastMatch]
    rw [ih (parseActionStep acc l)]
    cases h : lastMatch isInputLine ls with
    | some r => simp
    | none =>
      simp only [parseActionStep, isInputLine]
      by_cases h1 : pyStartsWith l "Action:" = true
      · have h2 : pyStartsWith l "Action Input:" = false :=
          startsWith_action_not_input l h1
        simp [h1, h2]
      · by_cases h2 : pyStartsWith l "Action Input:" = true
        · cases hj : jsonLoads (pyStrip (pyReplace l "Action Input:" "")) <;>
            simp [h1, h2, hj, inputOfLine]
        · simp [h1, h2]

/-- The loop makes at most `remaining` completion calls: every pass either
returns after its single call or recurses with one unit less. -/
theorem runLoop_calls_le (a : ReActAgent) (llm : List Message → String) :
    ∀ (remaining : Nat) (messages : List Message),
      (runLoop a llm remaining messages).2 ≤ remaining := by
  intro remaining
  induction remaining with
  | zero => intro messages; simp [runLoop]
  | succ n ih =>
    intro messages
    simp only [runLoop]
    split
    · simp
    · split
      · simp
      · split
        · simp
        · split
          · simpa using Nat.succ_le_succ (ih _)
          · split
            · split
              · simp
              · simpa using Nat.succ_le_succ (ih _)
            · simp

/-- Under a stub that never emits the final-answer marker and always
requests an unregistered tool, every pass consumes one budget unit, so the
loop returns the exhaustion message after exactly `remaining` calls. -/
theorem runLoop_bad_stub (a : ReActAgent) (llm : List Message → String)
    (hbad : ∀ messages : List Message,
      pyContains (llm messages) "Final Answer:" = false ∧
      ∃ nm, (parse_action (llm messages)).1 = some nm ∧ nm ≠ "" ∧
        toolsGet a.tools nm = none) :
    ∀ (remaining : Nat) (messages : List Message),
      runLoop a llm remaining messages =
        (.ok "I couldn\x27t complete the task within the iteration limit.",
          remaining) := by
  intro remaining
  induction remaining with
  | zero => intro messages; simp [runLoop]
  | succ n ih =>
    intro messages
    obtain ⟨h1, nm, h2, h3, h4⟩ := hbad messages
    simp [runLoop, h1, h2, h3, h4, ih]

/-- C1: a `run` call makes at most `max_iterations + 1` completion calls
before returning; and under a model stub that never emits `Final Answer:`
and always requests a nonexistent tool, `run` returns the fixed
budget-exhaustion message after exactly `max_iterations` completion
calls. -/
theorem C1_run_budget (a : ReActAgent) (llm : List Message → String)
    (q : String)
    (hbad : ∀ messages : List Message,
      pyContains (llm messages) "Final Answer:" = false ∧
      ∃ nm, (parse_action (llm messages)).1 = some nm ∧ nm ≠ "" ∧
        toolsGet a.tools nm = none) :
    (∀ (llm2 : List Message → String) (q2 : String),
      (run a llm2 q2).llm_calls ≤ a.max_iterations + 1) ∧
    (run a llm q).outcome =
      .ok "I couldn\x27t complete the task within the iteration limit." ∧
    (run a llm q).llm_calls = a.max_iterations := by
  refine ⟨fun llm2 q2 => ?_, ?_, ?_⟩
  · exact le_trans (runLoop_calls_le a llm2 a.max_iterations _) (Nat.le_succ _)
  · simp [run, runLoop_bad_stub a llm hbad]
  · simp [run, runLoop_bad_stub a llm hbad]

/-- Witness for C1: the init-built agent with a stub that always requests
the unregistered tool `ghost`. -/
theorem C1_run_budget_witness :
    (run demoAgent (fun _ => "Action: ghost") "q").outcome =
      .ok "I couldn\x27t complete the task within the iteration limit." ∧
    (run demoAgent (fun _ => "Action: ghost") "q").llm_calls = 10 := by
  have h := C1_run_budget demoAgent (fun _ => "Action: ghost") "q"
    (fun _ => ⟨rfl, ⟨"ghost", rfl, by decide, rfl⟩⟩)
  exact ⟨h.2.1, h.2.2⟩

/-- C2 (code bug): at a model response whose `Action Input:` decodes to a
JSON scalar, the call `tool.execute(**tool_input)` at react_agent.py line
262 raises `TypeError` outside any try block, so the exception escapes
`run`: the claimed caller-always-receives-a-string contract fails on the
code. -/
theorem C2_run_raises_on_scalar_input :
    (run demoAgent (fun _ => "Action: calculator\nAction Input: 42")
        "what is 2+2?").outcome =
      .raised "TypeError: argument after ** must be a mapping" := rfl

/-- C3: a response containing `Final Answer:` is terminal: `run` splits on
the first occurrence, trims, and returns after that single completion call,
short-circuiting action parsing (no hypothesis is made about `Action:`
lines in the response). -/
theorem C3_final_answer (a : ReActAgent) (llm : List Message → String)
    (q : String)
    (hpos : 0 < a.max_iterations)
    (hfinal : pyContains (llm (initialMessages a q)) "Final Answer:" = true) :
    (run a llm q).outcome =
      .ok (pyStrip (afterFirst (llm (initialMessages a q)) "Final Answer:")) ∧
    (run a llm q).llm_calls = 1 := by
  obtain ⟨n, hn⟩ : ∃ n, a.max_iterations = n + 1 :=
    ⟨a.max_iterations - 1, by omega⟩
  constructor <;> simp [run, hn, runLoop, hfinal]

/-- Witness for C3: a response holding both an `Action:` line and the
marker is treated as final and yields the trimmed tail `42`. -/
theorem C3_final_answer_witness :
    (run demoAgent (fun _ => "Action: calculator\nFinal Answer: 42")
        "q").outcome = .ok "42" ∧
    (run demoAgent (fun _ => "Action: calculator\nFinal Answer: 42")
        "q").llm_calls = 1 := by
  have h := C3_final_answer demoAgent
    (fun _ => "Action: calculator\nFinal Answer: 42") "q" (by decide) rfl
  exact ⟨h.1, h.2⟩

/-- C8: when the response holds neither a recognized `Action:` line (the
parsed name is `None`) nor the `Final Answer:` marker, `run` terminates
with the raw response text unchanged, after its single completion call. -/
theorem C8_fallback_raw_text (a : ReActAgent) (llm : List Message → String)
    (q : String)
    (hpos : 0 < a.max_iterations)
    (hnof : pyContains (llm (initialMessages a q)) "Final Answer:" = false)
    (hname : (parse_action (llm (initialMessages a q))).1 = none) :
    (run a llm q).outcome = .ok (llm (initialMessages a q)) ∧
    (run a llm q).llm_calls = 1 := by
  obtain ⟨n, hn⟩ : ∃ n, a.max_iterations = n + 1 :=
    ⟨a.max_iterations - 1, by omega⟩
  constructor <;> simp [run, hn, runLoop, hnof, hname]

/-- Witness for C8: a marker-free response is returned verbatim. -/
theorem C8_fallback_raw_text_witness :
    (run demoAgent (fun _ => "I do not know.") "q").outcome =
      .ok "I do not know." ∧
    (run demoAgent (fun _ => "I do not know.") "q").llm_calls = 1 := by
  have h := C8_fallback_raw_text demoAgent (fun _ => "I do not know.") "q"
    (by decide) rfl rfl
  exact ⟨h.1, h.2⟩

/-- C6: an unregistered tool name does not raise: the literal observation
string `Tool '<name>' not found.` is appended to the transcript after the
assistant message, and the loop continues into the next iteration with one
budget unit consumed (the pass cost exactly one completion call). -/
theorem C6_unknown_tool (a : ReActAgent) (llm : List Message → String)
    (q : String) (nm : String)
    (hpos : 0 < a.max_iterations)
    (hnof : pyContains (llm (initialMessages a q)) "Final Answer:" = false)
    (hname : (parse_action (llm (initialMessages a q))).1 = some nm)
    (hne : nm ≠ "")
    (habsent : toolsGet a.tools nm = none) :
    run a llm q =
      ⟨(runLoop a llm (a.max_iterations - 1)
          (initialMessages a q
            ++ [⟨"assistant", llm (initialMessages a q)⟩]
            ++ [⟨"user", "Observation: Tool \x27" ++ nm ++ "\x27 not found."⟩])).1,
        (runLoop a llm (a.max_iterations - 1)
          (initialMessages a q
            ++ [⟨"assistant", llm (initialMessages a q)⟩]
            ++ [⟨"user", "Observation: Tool \x27" ++ nm ++ "\x27 not found."⟩])).2 + 1,
        a⟩ := by
  obtain ⟨n, hn⟩ : ∃ n, a.max_iterations = n + 1 :=
    ⟨a.max_iterations - 1, by omega⟩
  simp [run, hn, runLoop, hnof, hname, hne, habsent]

/-- Witness for C6: `ghost` is not registered; the loop keeps going (here
until the budget runs out) rather than raising. -/
theorem C6_unknown_tool_witness :
    toolsGet demoAgent.tools "ghost" = none ∧
    (run demoAgent
        (fun _ => "Thought: hm\nAction: ghost\nAction Input: \x7b\x7d")
        "q").outcome =
      .ok "I couldn\x27t complete the task within the iteration limit." := by
  have h := C6_unknown_tool demoAgent
    (fun _ => "Thought: hm\nAction: ghost\nAction Input: \x7b\x7d") "q" "ghost"
    (by decide) rfl rfl (by decide) rfl
  refine ⟨rfl, ?_⟩
  rw [h]
  rfl

/-- C7 counterexample: with the decoded action input `{"self": 1}` the
original claim fails — the registered `get_current_time` capability stub
raises on every invocation (so the claim's hypothesis holds), yet the
bound-method call `tool.execute(**tool_input)` raises `TypeError` during
call binding, before the try block of `execute` is entered: nothing is
caught, the capability is never invoked, and the exception escapes `run`
on the first pass instead of the loop proceeding. -/
theorem C7_counterexample_self_key :
    timeStub [("self", JVal.jnum 1)] = .error "boom" ∧
    (run demoAgent
        (fun _ => "Action: get_current_time\nAction Input: \x7b\"self\": 1\x7d")
        "q").outcome =
      .raised
        "TypeError: execute() got multiple values for argument \x27self\x27" ∧
    (run demoAgent
        (fun _ => "Action: get_current_time\nAction Input: \x7b\"self\": 1\x7d")
        "q").llm_calls = 1 :=
  ⟨rfl, rfl, rfl⟩

/-- C7 (amended): a capability that raises is caught at the `Tool.execute`
boundary and converted to the string `Error executing <name>: <message>`,
and the loop appends it as an observation and proceeds to the next
iteration with one budget unit consumed — provided the decoded parameter
mapping does not contain the key `self`; a mapping containing `self`
instead makes the bound-method call `tool.execute(**tool_input)` raise an
uncaught `TypeError` during call binding (see the counterexample). -/
theorem C7_capability_error (a : ReActAgent) (llm : List Message → String)
    (q : String) (nm : String) (t : Tool) (kwargs : List (String × JVal))
    (msg : String)
    (hpos : 0 < a.max_iterations)
    (hnof : pyContains (llm (initialMessages a q)) "Final Answer:" = false)
    (hname : (parse_action (llm (initialMessages a q))).1 = some nm)
    (hne : nm ≠ "")
    (hinput : (parse_action (llm (initialMessages a q))).2 = some (.jobj kwargs))
    (hself : (kwargs.any fun p => p.1 = "self") = false)
    (htool : toolsGet a.tools nm = some t)
    (herr : t.function kwargs = .error msg) :
    t.execute kwargs = "Error executing " ++ t.name ++ ": " ++ msg ∧
    run a llm q =
      ⟨(runLoop a llm (a.max_iterations - 1)
          (initialMessages a q
            ++ [⟨"assistant", llm (initialMessages a q)⟩]
            ++ [⟨"user", "Observation: " ++ ("Error executing " ++ t.name ++ ": " ++ msg)⟩])).1,
        (runLoop a llm (a.max_iterations - 1)
          (initialMessages a q
            ++ [⟨"assistant", llm (initialMessages a q)⟩]
            ++ [⟨"user", "Observation: " ++ ("Error executing " ++ t.name ++ ": " ++ msg)⟩])).2 + 1,
        a⟩ := by
  have hexec : t.execute kwargs = "Error executing " ++ t.name ++ ": " ++ msg := by
    simp [Tool.execute, herr]
  refine ⟨hexec, ?_⟩
  obtain ⟨n, hn⟩ : ∃ n, a.max_iterations = n + 1 :=
    ⟨a.max_iterations - 1, by omega⟩
  simp [run, hn, runLoop, hnof, hname, hne, hinput, hself, htool, hexec]

/-- Witness for C7: the registered `get_current_time` capability stub
raises `boom`; `execute` converts it and the loop runs on to exhaustion
(10 completion calls) instead of stopping. -/
theorem C7_capability_error_witness :
    Tool.execute
      ⟨"get_current_time",
        "Returns current date and time. Input: timezone (optional, defaults to UTC). Example: get_current_time(timezone=\x27UTC\x27)",
        timeStub⟩ [] = "Error executing get_current_time: boom" ∧
    (run demoAgent
        (fun _ => "Action: get_current_time\nAction Input: \x7b\x7d")
        "q").llm_calls = 10 := by
  have h := C7_capability_error demoAgent
    (fun _ => "Action: get_current_time\nAction Input: \x7b\x7d") "q"
    "get_current_time"
    ⟨"get_current_time",
      "Returns current date and time. Input: timezone (optional, defaults to UTC). Example: get_current_time(timezone=\x27UTC\x27)",
      timeStub⟩ [] "boom"
    (by decide) rfl rfl (by decide) rfl rfl rfl rfl
  refine ⟨h.1, ?_⟩
  rw [h.2]
  rfl

/-- C4 counterexample: `Action Input: 42` does not decode as a JSON object,
yet the parser keeps the decoded scalar `42` instead of the claimed
raw-string wrapping (the fallback only fires when `json.loads` raises). -/
theorem C4_counterexample_scalar_input :
    parse_action "Action: foo\nAction Input: 42" =
      (some "foo", some (.jnum 42)) ∧
    (parse_action "Action: foo\nAction Input: 42").2 ≠
      some (.jobj [("input", .jstr "42")]) := by
  refine ⟨rfl, fun h => ?_⟩
  exact absurd (Option.some.inj h) (fun h2 => JVal.noConfusion h2)

/-- C4 (amended): the parser never fails; when the trimmed remainder of an
`Action Input:` line does not decode as JSON at all (`json.loads` raises),
it degrades to the single-field mapping of the raw string — so if every
`Action Input:` line of a text fails to decode, the parsed input is either
absent or such a wrapping; and parsing
`Action: foo\nAction Input: not-json` yields name `foo` and input
`{"input": "not-json"}`. A remainder that decodes as a non-object JSON
value is kept as decoded (see the counterexample). -/
theorem C4_parser_json_fallback (text : String)
    (hfail : ∀ line ∈ pyLines text, pyStartsWith line "Action Input:" = true →
      jsonLoads (pyStrip (pyReplace line "Action Input:" "")) = none) :
    ((parse_action text).2 = none ∨
      ∃ raw, (parse_action text).2 = some (.jobj [("input", .jstr raw)])) ∧
    parse_action "Action: foo\nAction Input: not-json" =
      (some "foo", some (.jobj [("input", .jstr "not-json")])) := by
  refine ⟨?_, rfl⟩
  have hm := foldl_snd_eq_lastMatch (pyLines text) (none, none)
  cases hl : lastMatch isInputLine (pyLines text) with
  | none =>
    left
    show ((pyLines text).foldl parseActionStep (none, none)).2 = none
    rw [hm, hl]
  | some l =>
    right
    obtain ⟨hmem, hp⟩ := lastMatch_mem _ _ _ hl
    have hj := hfail l hmem hp
    refine ⟨pyStrip (pyReplace l "Action Input:" ""), ?_⟩
    show ((pyLines text).foldl parseActionStep (none, none)).2 = _
    rw [hm, hl]
    simp [inputOfLine, hj]

/-- Witness for C4 (amended): the concrete malformed input of the claim. -/
theorem C4_parser_json_fallback_witness :
    (∃ raw, (parse_action "Action: foo\nAction Input: not-json").2 =
      some (.jobj [("input", .jstr raw)])) ∧
    parse_action "Action: foo\nAction Input: not-json" =
      (some "foo", some (.jobj [("input", .jstr "not-json")])) := by
  have h := C4_parser_json_fallback "Action: foo\nAction Input: not-json"
    (fun line hmem hpre => by fin_cases hmem <;> rfl)
  rcases h.1 with hnone | hex
  · exact absurd hnone (fun hc => Option.noConfusion hc)
  · exact ⟨hex, h.2⟩

/-- C5 counterexample: on an interior, indented marker line the claim's
trimmed-line rule recognizes the action `foo`, but the source tests the
prefix on the raw line (only the whole response was stripped), so it
recognizes no action. -/
theorem C5_counterexample_indented_line :
    (parse_action "Thought: x\n  Action: foo").1 = none ∧
    (parse_action_spec "Thought: x\n  Action: foo").1 = some "foo" :=
  ⟨rfl, rfl⟩

/-- C5 (amended): matching is prefix-based on each raw line of the
whole-stripped response — lines are not individually trimmed. An action
name (resp. input) is recognized exactly when some line literally starts
with the marker; in particular a line that merely contains a marker
mid-sentence, or an interior line with whitespace before the marker, never
matches. -/
theorem C5_prefix_matching (text : String) :
    ((parse_action text).1 ≠ none ↔
      ∃ l ∈ pyLines text, pyStartsWith l "Action:" = true) ∧
    ((parse_action text).2 ≠ none ↔
      ∃ l ∈ pyLines text, pyStartsWith l "Action Input:" = true) := by
  constructor
  · show ((pyLines text).foldl parseActionStep (none, none)).1 ≠ none ↔ _
    rw [foldl_fst_eq_lastMatch (pyLines text) (none, none)]
    cases hl : lastMatch isActionLine (pyLines text) with
    | none =>
      simp only [ne_eq, not_true, false_iff]
      rintro ⟨l, hmem, hp⟩
      have := (lastMatch_isSome_iff isActionLine (pyLines text)).mpr ⟨l, hmem, hp⟩
      rw [hl] at this
      simp at this
    | some l =>
      obtain ⟨hmem, hp⟩ := lastMatch_mem _ _ _ hl
      simp only [ne_eq, reduceCtorEq, not_false_eq_true, true_iff]
      exact ⟨l, hmem, hp⟩
  · show ((pyLines text).foldl parseActionStep (none, none)).2 ≠ none ↔ _
    rw [foldl_snd_eq_lastMatch (pyLines text) (none, none)]
    cases hl : lastMatch isInputLine (pyLines text) with
    | none =>
      simp only [ne_eq, not_true, false_iff]
      rintro ⟨l, hmem, hp⟩
      have := (lastMatch_isSome_iff isInputLine (pyLines text)).mpr ⟨l, hmem, hp⟩
      rw [hl] at this
      simp at this
    | some l =>
      obtain ⟨hmem, hp⟩ := lastMatch_mem _ _ _ hl
      simp only [ne_eq, reduceCtorEq, not_false_eq_true, true_iff]
      exact ⟨l, hmem, hp⟩

/-- Witness for C5 (amended): a text whose only markers sit mid-sentence or
behind indentation yields no recognized action name, while a text with the
marker as the literal line prefix does. -/
theorem C5_prefix_matching_witness :
    (parse_action "I could take an Action: here\n  Action: indented").1 = none ∧
    (parse_action "Action: calculator").1 = some "calculator" := by
  have h1 := (C5_prefix_matching "I could take an Action: here\n  Action: indented").1
  have h2 := (C5_prefix_matching "Action: calculator").1
  constructor
  · by_contra hne
    obtain ⟨l, hmem, hp⟩ := h1.mp hne
    fin_cases hmem <;> exact absurd hp (by decide)
  · rfl

/-- C9: last-one-wins — the parsed name and input are exactly the
contributions of the last `Action:`-matching line and of the last
`Action Input:`-matching line of the scanned response (later occurrences
overwrite earlier ones, independently for the two markers). -/
theorem C9_last_one_wins (text : String) :
    (parse_action text).1 =
      (lastMatch isActionLine (pyLines text)).map nameOfLine ∧
    (parse_action text).2 =
      (lastMatch isInputLine (pyLines text)).map inputOfLine := by
  constructor
  · show ((pyLines text).foldl parseActionStep (none, none)).1 = _
    rw [foldl_fst_eq_lastMatch (pyLines text) (none, none)]
    cases lastMatch isActionLine (pyLines text) <;> simp
  · show ((pyLines text).foldl parseActionStep (none, none)).2 = _
    rw [foldl_snd_eq_lastMatch (pyLines text) (none, none)]
    cases lastMatch isInputLine (pyLines text) <;> simp

/-- C10: `run` builds a fresh local message list and never assigns to any
field of the agent; `conversation_history` — empty at construction — is
returned unchanged by `get_conversation_history` before and after any
number of `run` calls, and `tools`, `model`, `api_key`, `max_iterations`
are likewise unchanged. -/
theorem C10_run_frame :
    (∀ (a : ReActAgent) (llm : List Message → String) (q : String),
      (run a llm q).agent = a) ∧
    (∀ (a : ReActAgent) (llm : List Message → String) (qs : List String),
      qs.foldl (fun ag q => (run ag llm q).agent) a = a) ∧
    (∀ (api_key model : String)
      (c t w x : List (String × JVal) → Except String String),
      get_conversation_history (ReActAgent.init api_key model c t w x) = []) ∧
    (∀ (a : ReActAgent) (llm : List Message → String) (q : String),
      get_conversation_history (run a llm q).agent =
        get_conversation_history a ∧
      (run a llm q).agent.tools = a.tools ∧
      (run a llm q).agent.model = a.model ∧
      (run a llm q).agent.api_key = a.api_key ∧
      (run a llm q).agent.max_iterations = a.max_iterations) := by
  refine ⟨fun a llm q => rfl, fun a llm qs => ?_, fun _ _ _ _ _ _ => rfl,
    fun a llm q => ⟨rfl, rfl, rfl, rfl, rfl⟩⟩
  induction qs generalizing a with
  | nil => rfl
  | cons q qs ih => exact ih a

end ReAct
